import Mathlib

/-!
Verification of the couchdb-python client library's query/pagination layer.

The development shallowly embeds the Python sources:
  * `couchdb/client/find/query.py`     (`FindQuery`, a `dict` subclass)
  * `couchdb/client/find/response.py`  (`FindResponse`)
  * `couchdb/client/find/find.py`      (`Find.execute`, `Find.__iter__`)
  * `couchdb/client/find/iterator.py`  (`FindIterator`)
  * `couchdb/client/view.py`           (`_encode_view_options`, `_call_viewlike`)
  * `couchdb/client/exceptions.py`     (`CouchDBException.auto`, `lookup_table`)
  * `couchdb/client.py`                (`Database.iterview`, `Database._changes`)

Python JSON-ready values are modelled by `JVal`; Python dicts by ordered
association lists (`QMap`).  Fallible operations (`del` on a missing key,
calling a missing attribute, JSON-decoding a malformed body) return
`Except PyErr _`.  The HTTP transport is an external collaborator and is
modelled as a function supplied to each operation.
-/

set_option autoImplicit false

namespace CouchDB

/-- A Python value that can appear in a JSON-ready mapping.  `num` carries an
`Int` (Python ints); `obj` is an ordered field list, as Python dicts preserve
insertion order.  (`bytes` values, also matched by `util.strbase`, are not
JSON-serializable and are outside the mappings these claims quantify over.) -/
inductive JVal where
  | null : JVal
  | jbool : Bool → JVal
  | num : Int → JVal
  | str : String → JVal
  | arr : List JVal → JVal
  | obj : List (String × JVal) → JVal

/-- Python truthiness (`bool(v)`) on a `JVal`: `None`, `False`, `0`, `""`,
`[]` and `{}` are falsy. -/
def JVal.truthy : JVal → Bool
  | .null => false
  | .jbool b => b
  | .num n => n != 0
  | .str s => !(s == "")
  | .arr xs => !xs.isEmpty
  | .obj fs => !fs.isEmpty

/-- `isinstance(v, util.strbase)` where `util.strbase = (str, bytes)`:
true exactly on textual scalars. -/
def JVal.isStrbase : JVal → Bool
  | .str _ => true
  | _ => false

/-- `isinstance(v, dict)`. -/
def JVal.isDict : JVal → Bool
  | .obj _ => true
  | _ => false

/-- The string payload of a textual scalar (only applied to `.str` values). -/
def JVal.asString : JVal → String
  | .str s => s
  | _ => ""

/-- `v == n` in Python, where `n` is a non-negative int (a row count).
Python compares `bool` with `int` numerically; all non-numeric values
compare unequal to an int. -/
def JVal.pyEqNat (v : JVal) (n : Nat) : Bool :=
  match v with
  | .num m => m == (n : Int)
  | .jbool b => (if b then (1 : Int) else 0) == (n : Int)
  | _ => false

mutual
/-- A deterministic model of `json.dumps` on JSON-ready values.  The exact
escaping rules of the Python stdlib are immaterial to the claims; what matters
is that the encoder is a fixed pure function of the value. -/
def jsonDumps : JVal → String
  | .null => "null"
  | .jbool true => "true"
  | .jbool false => "false"
  | .num n => toString n
  | .str s => "\"" ++ s ++ "\""
  | .arr xs => "[" ++ jsonDumpsList xs ++ "]"
  | .obj fs => "\x7b" ++ jsonDumpsFields fs ++ "\x7d"

def jsonDumpsList : List JVal → String
  | [] => ""
  | [x] => jsonDumps x
  | x :: xs => jsonDumps x ++ "," ++ jsonDumpsList xs

def jsonDumpsFields : List (String × JVal) → String
  | [] => ""
  | [(k, v)] => "\"" ++ k ++ "\":" ++ jsonDumps v
  | (k, v) :: fs => "\"" ++ k ++ "\":" ++ jsonDumps v ++ "," ++ jsonDumpsFields fs
end

/-- A Python `dict` with string keys, as an ordered association list
(insertion order preserved, keys unique in any dict built by the code). -/
abbrev QMap : Type := List (String × JVal)

/-- `d.get(k)`: first binding of `k`, or `None`. -/
def QMap.get (q : QMap) (k : String) : Option JVal :=
  match q with
  | [] => none
  | (k', v) :: rest => if k' = k then some v else QMap.get rest k

/-- `d[k] = v`: replace the binding in place if present, else append. -/
def QMap.insert (q : QMap) (k : String) (v : JVal) : QMap :=
  match q with
  | [] => [(k, v)]
  | (k', v') :: rest =>
      if k' = k then (k', v) :: rest else (k', v') :: QMap.insert rest k v

/-- Remove every binding of `k` (a real dict has at most one). -/
def QMap.eraseKey (q : QMap) (k : String) : QMap :=
  match q with
  | [] => []
  | (k', v') :: rest =>
      if k' = k then QMap.eraseKey rest k else (k', v') :: QMap.eraseKey rest k

/-- `k in d`. -/
def QMap.hasKey (q : QMap) (k : String) : Bool :=
  (q.get k).isSome

/-- Python-level runtime errors surfaced by the embedded code. -/
inductive PyErr where
  | keyError : PyErr
  | attributeError : PyErr
  | jsonDecodeError : PyErr
  | typeError : PyErr
  | valueError : String → PyErr
deriving DecidableEq

/-- `del d[k]`: removes the binding, or raises `KeyError` when absent. -/
def QMap.delItem (q : QMap) (k : String) : Except PyErr QMap :=
  if q.hasKey k then .ok (q.eraseKey k) else .error .keyError

/-!  ## `FindQuery` optional-field setters (`couchdb/client/find/query.py`)

Every optional-field setter has the shape

    if value is None: del self[key]
    else: self[key] = value

so they are embedded by one parametric function applied at each field name. -/

/-- One `FindQuery` property setter: `None` deletes the key (via `del`),
any other value is stored under the key. -/
def FindQuery.fieldSet (q : QMap) (k : String) (v : Option JVal) : Except PyErr QMap :=
  match v with
  | none => q.delItem k
  | some x => .ok (q.insert k x)

/-- The optional fields of `FindQuery` that have a `None`-deleting setter. -/
def FindQuery.optionalFields : List String :=
  ["limit", "skip", "sort", "fields", "use_index", "r",
   "bookmark", "update", "stable", "stale", "execution_stats"]

/-!  ## View option encoder (`couchdb/client/view.py::_encode_view_options`) -/

/-- The body of the loop in `_encode_view_options`: the value is JSON-encoded
when the name is `key`/`startkey`/`endkey` or the value is not a textual
scalar; otherwise the textual scalar passes through unencoded. -/
def encodeViewEntry (name : String) (value : JVal) : String :=
  if name = "key" ∨ name = "startkey" ∨ name = "endkey" ∨ !value.isStrbase then
    jsonDumps value
  else
    value.asString

/-- `_encode_view_options`: encode each item of the options dict, keeping
names and iteration order. -/
def encodeViewOptions (options : List (String × JVal)) : List (String × String) :=
  options.map fun p => (p.1, encodeViewEntry p.1 p.2)

/-!  ## HTTP responses and the error classifier
(`couchdb/client/exceptions.py`) -/

/-- An HTTP response from the `requests` collaborator: `ok` is
`200 <= status < 400`; `body` is the result of `response.json()` — `.error`
when the body is not valid JSON (`json()` raises `JSONDecodeError`). -/
structure HttpResponse where
  ok : Bool
  status : Int
  body : Except Unit JVal

/-- The exception classes of `couchdb/client/exceptions.py`:
`CouchDBException` (generic), `UnauthorizedException`,
`DocumentConflictException`, `NotFoundException`. -/
inductive ExcKind where
  | generic : ExcKind
  | unauthorized : ExcKind
  | conflict : ExcKind
  | notFound : ExcKind
deriving DecidableEq

/-- A constructed `CouchDBException` value: its class plus the `error` and
`reason` attributes set by `__init__`. -/
structure CouchExc where
  kind : ExcKind
  error : Option JVal
  reason : Option JVal

/-- Python hashability of a JSON-ready value: lists and dicts are
unhashable; `None`, booleans, ints and strings hash fine. -/
def JVal.hashable : JVal → Bool
  | .arr _ => false
  | .obj _ => false
  | _ => true

/-- The `defaultdict` subscript `cls.lookup_table[reason]`: hashing the key
comes first, so an unhashable `reason` (a JSON array or object) raises
`TypeError`; otherwise `conflict`, `unauthorized` and `not_found` map to
their exception classes and any other key (including a missing or
non-string reason) falls to the `CouchDBException` default. -/
def CouchDBException.lookup_table (reason : Option JVal) : Except PyErr ExcKind :=
  match reason with
  | some (.arr _) => .error .typeError
  | some (.obj _) => .error .typeError
  | some (.str "conflict") => .ok .conflict
  | some (.str "unauthorized") => .ok .unauthorized
  | some (.str "not_found") => .ok .notFound
  | _ => .ok .generic

/-- The argument `CouchDBException.auto` is invoked on: either a real
`requests` response, or — as in `Find.execute`, which passes
`response.json()` — an already-parsed body. -/
inductive AutoArg where
  | resp : HttpResponse → AutoArg
  | parsed : JVal → AutoArg

/-- `x.json()`: responses have a `json` method whose call parses the body
(raising `JSONDecodeError`, the inner `.error`, on malformed bodies);
a parsed dict has no `json` attribute, so the lookup itself raises
`AttributeError` (the outer `.error`). -/
def AutoArg.jsonCall : AutoArg → Except PyErr (Except Unit JVal)
  | .resp r => .ok r.body
  | .parsed _ => .error .attributeError

/-- `x.status_code` (only reached when `x` is a response). -/
def AutoArg.statusCode : AutoArg → Int
  | .resp r => r.status
  | .parsed _ => 0

/-- `data.get(k)` on a parsed body: works on dicts, raises `AttributeError`
on any other parsed value (e.g. a JSON array body). -/
def JVal.dictGet (v : JVal) (k : String) : Except PyErr (Option JVal) :=
  match v with
  | .obj fs => .ok (QMap.get fs k)
  | _ => .error .attributeError

/-- `CouchDBException.auto`: parse the body for `error`/`reason` inside a
`try` that catches only `JSONDecodeError` — a malformed body synthesizes
`error='json'` with a reason embedding the status code — then instantiate
the class found in `lookup_table`.  A non-`JSONDecodeError` failure
(`AttributeError` from calling `.json()` on a dict, or `TypeError` from
subscripting the table with an unhashable reason — both outside the `try`)
propagates. -/
def CouchDBException.auto (x : AutoArg) : Except PyErr CouchExc :=
  match x.jsonCall with
  | .error e => .error e
  | .ok (.ok data) =>
      match data.dictGet "error", data.dictGet "reason" with
      | .ok error, .ok reason =>
          match CouchDBException.lookup_table reason with
          | .ok kind => .ok ⟨kind, error, reason⟩
          | .error e => .error e
      | .error e, _ => .error e
      | .ok _, .error e => .error e
  | .ok (.error _) =>
      let reason :=
        JVal.str ("Invalid data received from server, status code "
          ++ toString x.statusCode)
      match CouchDBException.lookup_table (some reason) with
      | .ok kind => .ok ⟨kind, some (.str "json"), some reason⟩
      | .error e => .error e

/-!  ## The result page fetchers
(`couchdb/client/view.py::_call_viewlike`,
`couchdb/client/find/find.py::Find.execute`)

An error result is either a Python-level exception escaping the code
(`Sum.inl`) or a deliberately raised classified `CouchDBException`
(`Sum.inr`). -/

/-- `_call_viewlike`: issue the request (POST with a `keys` body when
`keys` is among the options, GET otherwise) and return `response.json()`.
`resp` is the transport's response; the source performs **no status
check** before parsing. -/
def callViewlike (resp : HttpResponse) : Except (PyErr ⊕ CouchExc) JVal :=
  match resp.body with
  | .ok v => .ok v
  | .error _ => .error (.inl .jsonDecodeError)

/-- The HTTP-facing part of `Find.execute`: on a non-ok response it executes
`raise CouchDBException.auto(response.json())` — `response.json()` is
evaluated first (its `JSONDecodeError` escapes), then `auto` is applied to
the *parsed dict* rather than the response; on an ok response `.json()` is
parsed into the page body. -/
def Find.executeHttp (resp : HttpResponse) : Except (PyErr ⊕ CouchExc) JVal :=
  if resp.ok = false then
    match resp.body with
    | .error _ => .error (.inl .jsonDecodeError)
    | .ok data =>
        match CouchDBException.auto (.parsed data) with
        | .error e => .error (.inl e)
        | .ok exc => .error (.inr exc)
  else
    match resp.body with
    | .error _ => .error (.inl .jsonDecodeError)
    | .ok data => .ok data

/-!  ## `FindResponse`, `Find` and `FindIterator`
(`couchdb/client/find/response.py`, `find.py`, `iterator.py`)

The `_find` transport is abstracted as a function from the posted query to
a successful wire response (the non-2xx path is `Find.executeHttp` above). -/

/-- A successful `_find` wire response: the fields `FindResponse.__init__`
reads from the parsed body (`docs` is required, the rest optional). -/
structure WireResp where
  docs : List JVal
  bookmark : Option String
  warning : Option JVal
  execution_stats : Option JVal

/-- The `_find` endpoint collaborator. -/
abbrev FindServer : Type := QMap → WireResp

/-- `FindResponse.__init__` state: parsed fields plus the stored wrapper and
the computed `has_next_page`. -/
structure FindResponse where
  _docs : List JVal
  bookmark : Option String
  warning : Option JVal
  execution_stats : Option JVal
  wrapper : JVal → JVal

/-- `FindResponse.count`: `len(self._docs)`. -/
def FindResponse.count (r : FindResponse) : Nat := r._docs.length

/-- `FindResponse.docs`: `map(self.wrapper or Document, self._docs)`
(the wrapper field is the already-resolved callable). -/
def FindResponse.docs (r : FindResponse) : List JVal := r._docs.map r.wrapper

/-- `FindResponse.__init__(response, wrapper, page_size=25)`. -/
def FindResponse.make (resp : WireResp) (wrapper : JVal → JVal) : FindResponse :=
  { _docs := resp.docs, bookmark := resp.bookmark, warning := resp.warning,
    execution_stats := resp.execution_stats, wrapper := wrapper }

/-- `self.has_next_page = self.bookmark is not None and self.count == page_size`
from `FindResponse.__init__`; `Find.execute` leaves `page_size` at its
default of 25. -/
def FindResponse.has_next_page (r : FindResponse) (page_size : Nat) : Bool :=
  r.bookmark.isSome && (r.count == page_size)

/-- The `Find` object's configuration: the stored query, the resolved row
wrapper, and the auto-pagination flag (url/session belong to the transport
collaborator). -/
structure Find where
  query : QMap
  wrapper : JVal → JVal
  autoPaginate : Bool

/-- `FindQuery(**q)`: `__init__(self, selector, sort=None, **options)` builds
a fresh dict from `selector`, the remaining options, and — when `sort` is
truthy — `sort` re-appended, wrapped in a list when it is a single dict.
(A query lacking `selector` would raise `TypeError`; every query built by
the code carries one, modelled by `getD .null`.) -/
def FindQuery.copy (q : QMap) : QMap :=
  let options := (q.eraseKey "selector").eraseKey "sort"
  let sortEntry : QMap :=
    match q.get "sort" with
    | some s => if s.truthy then [("sort", if s.isDict then .arr [s] else s)] else []
    | none => []
  ("selector", (q.get "selector").getD .null) :: options ++ sortEntry

/-- Lines 28–33 of `Find.execute`: the query actually posted.  With no
bookmark the stored query itself is posted; with a bookmark, a fresh
`FindQuery(**self.query)` copy is built and the bookmark setter is applied
to the copy. -/
def Find.sentQuery (query : QMap) (bookmark : Option String) : QMap :=
  match bookmark with
  | none => query
  | some b => (FindQuery.copy query).insert "bookmark" (.str b)

/-- The success path of `Find.execute`: post the sent query, wrap the
response.  The second component is the stored `self.query` after the call —
the bookmark setter only ever touched the fresh copy, so it is returned
unchanged. -/
def Find.executeOk (server : FindServer) (find : Find) (bookmark : Option String) :
    FindResponse × QMap :=
  (FindResponse.make (server (Find.sentQuery find.query bookmark)) find.wrapper,
   find.query)

/-- `FindIterator` state: the owning `Find`, the bookmark of the last page,
the FIFO row buffer (`collections.deque`), and `hasMorePages`. -/
structure FindIterState where
  find : Find
  bookmark : Option String
  queue : List JVal
  hasMorePages : Bool

/-- `d.get('limit') or 25`: the stored limit when truthy, else 25. -/
def pyOr25 (v : Option JVal) : JVal :=
  match v with
  | some x => if x.truthy then x else .num 25
  | none => .num 25

/-- `FindIterator.fetch_more`: execute with the saved bookmark, save the new
page's bookmark, extend the queue with the page's (wrapped) docs, and set
`hasMorePages = self.bookmark is not None and
results.count == (self.find.query.get('limit') or 25)`. -/
def fetchMore (server : FindServer) (st : FindIterState) : FindIterState :=
  let r := Find.executeOk server st.find st.bookmark
  let results := r.1
  { find := { st.find with query := r.2 },
    bookmark := results.bookmark,
    queue := st.queue ++ results.docs,
    hasMorePages :=
      results.bookmark.isSome
        && (pyOr25 (r.2.get "limit")).pyEqNat results.count }

/-- `FindIterator.__init__`: start with no bookmark and an empty queue, then
immediately `fetch_more` (the initial `hasMorePages` value is irrelevant:
`fetch_more` overwrites it before any read). -/
def iterInit (server : FindServer) (find : Find) : FindIterState :=
  fetchMore server { find := find, bookmark := none, queue := [], hasMorePages := false }

/-- `FindIterator.__next__` with explicit recursion fuel: pop the front of
the queue; on `IndexError` (empty queue), when auto-pagination is on and
`hasMorePages` holds, `fetch_more` and retry, else `StopIteration` (`none`). -/
def nextFuel (server : FindServer) : Nat → FindIterState → Option (JVal × FindIterState)
  | 0, _ => none
  | Nat.succ n, st =>
      match st.queue with
      | r :: rest => some (r, { st with queue := rest })
      | [] =>
          if st.find.autoPaginate && st.hasMorePages then
            nextFuel server n (fetchMore server st)
          else none

/-- `__next__` recurses at most once: an empty refetch forces
`hasMorePages = false` (proved in `nextFuel_fuel_irrelevant`), so fuel 2 is
the exact semantics. -/
def iterNext (server : FindServer) (st : FindIterState) : Option (JVal × FindIterState) :=
  nextFuel server 2 st

/-- One consumer step: `__next__`, keeping the old state at `StopIteration`. -/
def stepState (server : FindServer) (st : FindIterState) : FindIterState :=
  match iterNext server st with
  | some (_, st') => st'
  | none => st

/-- `n` consumer steps. -/
def runSteps (server : FindServer) : Nat → FindIterState → FindIterState
  | 0, st => st
  | Nat.succ n, st => runSteps server n (stepState server st)

theorem pyEqNat_pyOr25_zero (v : Option JVal) : (pyOr25 v).pyEqNat 0 = false := by
  rcases v with _ | x
  · rfl
  · rcases x with _ | b | n | s | xs | fs
    · rfl
    · cases b <;> rfl
    · by_cases h : n = 0
      · subst h; rfl
      · simp [pyOr25, JVal.truthy, JVal.pyEqNat, bne, h]
    · by_cases h : s = ""
      · subst h; rfl
      · simp [pyOr25, JVal.truthy, JVal.pyEqNat, h]
    · cases xs <;> rfl
    · cases fs <;> rfl

theorem fetchMore_queue (server : FindServer) (st : FindIterState) :
    (fetchMore server st).queue =
      st.queue ++ (FindResponse.make
        (server (Find.sentQuery st.find.query st.bookmark)) st.find.wrapper).docs := rfl

theorem fetchMore_empty_not_hasMore (server : FindServer) (st : FindIterState)
    (hq : st.queue = []) (hq' : (fetchMore server st).queue = []) :
    (fetchMore server st).hasMorePages = false := by
  have hd : (FindResponse.make
      (server (Find.sentQuery st.find.query st.bookmark)) st.find.wrapper)._docs = [] := by
    have := fetchMore_queue server st
    rw [hq', hq] at this
    simpa [FindResponse.docs] using this.symm
  show (_ && (pyOr25 _).pyEqNat (FindResponse.make _ _).count) = false
  rw [show (FindResponse.make
      (server (Find.sentQuery st.find.query st.bookmark)) st.find.wrapper).count
      = 0 from by simp [FindResponse.count, hd]]
  simp [pyEqNat_pyOr25_zero]

theorem nextFuel_fuel_irrelevant (server : FindServer) (n : Nat) (st : FindIterState) :
    nextFuel server (n + 2) st = iterNext server st := by
  show nextFuel server (n + 2) st = nextFuel server 2 st
  rcases hq : st.queue with _ | ⟨r, rest⟩
  · rcases hc : st.find.autoPaginate && st.hasMorePages with _ | _
    · simp [nextFuel, hq, hc]
    · rcases hq' : (fetchMore server st).queue with _ | ⟨r', rest'⟩
      · have hm := fetchMore_empty_not_hasMore server st hq hq'
        simp [nextFuel, hq, hc, hq', hm]
      · simp [nextFuel, hq, hc, hq']
  · simp [nextFuel, hq]

/-!  ## Batched view iteration (`couchdb/client.py::Database.iterview`) -/

/-- A view row as `iterview` consumes it: only `row['id']` and `row['key']`
are read (for the `startkey`/`startkey_docid` cursor). -/
structure VRow where
  id : String
  key : String
deriving DecidableEq

/-- One view request as issued by `iterview`: the `limit` option it sets and
the cursor (`startkey`, `startkey_docid`, with `skip=0`).  Caller-supplied
options passed through unchanged are folded into the server function. -/
structure ViewReq where
  limit : Int
  start : Option (String × String)
deriving DecidableEq

/-- The view endpoint collaborator: rows returned for one request. -/
abbrev ViewServer : Type := ViewReq → List VRow

/-- `limit or batch`: `limit` when it is a truthy int (non-zero), else
`batch`. -/
def pyOrInt (limit : Option Int) (batch : Int) : Int :=
  match limit with
  | some l => if l == 0 then batch else l
  | none => batch

/-- `limit is not None and limit <= 0`. -/
def nonposOpt (limit : Option Int) : Bool :=
  match limit with
  | some l => decide (l ≤ 0)
  | none => false

/-- The observable record of one pass of `iterview`'s `while True` body. -/
structure IterStep where
  requestedLimit : Int
  rows : List VRow
  yielded : List VRow
  newLimit : Option Int
  stop : Bool
  cursor : Option (String × String)

/-- One pass of the `while True` body of `iterview`:
`loop_limit = min(limit or batch, batch)`; request `loop_limit + 1` rows
(one lookahead); yield `islice(rows, loop_limit)`; decrement the remaining
limit by `min(len(rows), batch)`; stop when
`len(rows) <= batch or limit == 0`; otherwise take the last fetched row's
key/id as the next cursor (`startkey`/`startkey_docid`, `skip=0`). -/
def iterviewStep (server : ViewServer) (batch : Int) (limit : Option Int)
    (start : Option (String × String)) : IterStep :=
  let loopLimit : Int := min (pyOrInt limit batch) batch
  let rows := server ⟨loopLimit + 1, start⟩
  let yielded := rows.take loopLimit.toNat
  let limit' := limit.map fun l => l - min (rows.length : Int) batch
  let stop := decide ((rows.length : Int) ≤ batch) || decide (limit' = some 0)
  let cursor : Option (String × String) :=
    match rows.getLast? with
    | some last => some (last.key, last.id)
    | none => none
  ⟨loopLimit + 1, rows, yielded, limit', stop, cursor⟩

/-- The `while True` loop of `iterview` with explicit fuel (with no caller
limit and an endless view the loop genuinely does not terminate):
`some (rows yielded, requests made)` when it finishes within `fuel`
requests. -/
def iterviewLoop (server : ViewServer) (batch : Int) :
    Nat → Option Int → Option (String × String) → Option (List VRow × Nat)
  | 0, _, _ => none
  | Nat.succ fuel, limit, start =>
      let s := iterviewStep server batch limit start
      if s.stop then some (s.yielded, 1)
      else
        match iterviewLoop server batch fuel s.newLimit s.cursor with
        | some (out, reqs) => some (s.yielded ++ out, reqs + 1)
        | none => none

/-- `Database.iterview`: validate `batch` and the caller's `limit` before the
loop — `batch <= 0` and non-`None` `limit <= 0` raise `ValueError` with the
source's messages; otherwise run the loop (starting from the caller's
cursorless options). -/
def iterview (server : ViewServer) (batch : Int) (limit : Option Int)
    (fuel : Nat) : Except PyErr (Option (List VRow × Nat)) :=
  if batch ≤ 0 then .error (.valueError "batch must be 1 or more")
  else if nonposOpt limit then .error (.valueError "limit must be 1 or more")
  else .ok (iterviewLoop server batch fuel limit none)

/-- The backing view of the spec's batched-iteration example: exactly five
matching rows. -/
def view5 : List VRow :=
  [⟨"d1", "k1"⟩, ⟨"d2", "k2"⟩, ⟨"d3", "k3"⟩, ⟨"d4", "k4"⟩, ⟨"d5", "k5"⟩]

/-- A view server over `view5` honouring `startkey`/`startkey_docid`
(inclusive) and `limit`. -/
def view5Server : ViewServer := fun req =>
  (match req.start with
   | none => view5
   | some (k, i) => view5.dropWhile fun r => !(r.key == k && r.id == i)).take
    req.limit.toNat

/-!  ## Change feed reader (`couchdb/client.py::Database._changes`) -/

/-- One decoded change-feed object; `hasLastSeq` is `'last_seq' in doc` and
`payload` distinguishes events. -/
structure ChangeDoc where
  hasLastSeq : Bool
  payload : Nat
deriving DecidableEq

/-- Modelled from the spec: the JSON decoder and streaming transport used by
`Database._changes` (`json.decode` from the legacy `couchdb/json.py` module
and `self.resource`/`data.iterchunks()` from `couchdb/http.py`) are not
under `src/`; per the spec's Change Feed Reader contract a stream line is
either an empty heartbeat (`none`) or decodes to exactly one JSON object
(`some doc`). -/
abbrev FeedLine : Type := Option ChangeDoc

/-- The line loop of `Database._changes`: skip falsy (empty) lines; decode
and yield each non-empty line; when the decoded object contains `last_seq`,
drain the remaining lines (discarding them) and yield that object last. -/
def changesRun : List FeedLine → List ChangeDoc
  | [] => []
  | none :: rest => changesRun rest
  | some d :: rest => if d.hasLastSeq then [d] else d :: changesRun rest

/-!  ## Claim theorems -/

theorem invalid_reason_ne (x t : String) (ht : t.length < 47) :
    ("Invalid data received from server, status code " ++ x) ≠ t := by
  intro heq
  have hl := congrArg String.length heq
  rw [String.length_append,
    show ("Invalid data received from server, status code ").length = 47 from rfl] at hl
  omega

theorem lookup_table_eq_generic (v : Option JVal)
    (hh : ∀ x, v = some x → x.hashable = true)
    (h1 : v ≠ some (.str "conflict")) (h2 : v ≠ some (.str "unauthorized"))
    (h3 : v ≠ some (.str "not_found")) :
    CouchDBException.lookup_table v = .ok .generic := by
  unfold CouchDBException.lookup_table
  split <;> simp_all [JVal.hashable]

theorem lookup_table_unhashable (x : JVal) (hx : x.hashable = false) :
    CouchDBException.lookup_table (some x) = .error .typeError := by
  rcases x with _ | b | n | s | xs | fs <;>
    simp_all [JVal.hashable, CouchDBException.lookup_table]

theorem lookup_table_error_typeError (v : Option JVal) (e : PyErr)
    (h : CouchDBException.lookup_table v = .error e) : e = .typeError := by
  unfold CouchDBException.lookup_table at h
  split at h <;> simp_all

/-- C3 counterexample: on a query without a `limit` key, assigning the unset
sentinel (`None`) to `limit` is not a no-op — the setter's bare
`del self['limit']` raises `KeyError`. -/
theorem C3_counterexample :
    FindQuery.fieldSet [("selector", JVal.obj [])] "limit" none
      = .error .keyError := rfl

/-- C3 (amended): for every optional `FindQuery` field, assigning `None`
removes the key when it is present; assigning `None` when the key is absent
raises `KeyError` (removal is not idempotent); assigning a non-`None` value
stores it under the key. -/
theorem C3_setter_removal (q : QMap) (k : String)
    (_hk : k ∈ FindQuery.optionalFields) :
    (q.hasKey k = true → FindQuery.fieldSet q k none = .ok (q.eraseKey k))
    ∧ (q.hasKey k = false → FindQuery.fieldSet q k none = .error .keyError)
    ∧ (∀ v, FindQuery.fieldSet q k (some v) = .ok (q.insert k v)) := by
  refine ⟨fun h => ?_, fun h => ?_, fun v => rfl⟩ <;>
    simp [FindQuery.fieldSet, QMap.delItem, h]

/-- C3 witness: removing a present `limit` key succeeds and removes exactly
that key. -/
theorem C3_witness :
    ("limit" ∈ FindQuery.optionalFields)
    ∧ (QMap.hasKey [("selector", JVal.obj []), ("limit", JVal.num 10)] "limit" = true)
    ∧ FindQuery.fieldSet [("selector", JVal.obj []), ("limit", JVal.num 10)] "limit" none
        = .ok [("selector", JVal.obj [])] := by
  refine ⟨by simp [FindQuery.optionalFields], rfl, ?_⟩
  have h := (C3_setter_removal
    [("selector", JVal.obj []), ("limit", JVal.num 10)] "limit"
    (by simp [FindQuery.optionalFields])).1 rfl
  simpa [QMap.eraseKey] using h

/-- C4 (code bug): a non-2xx response is not reported through the error
classifier.  `_call_viewlike` performs no status check and returns the
parsed 404 body as if it were a successful page, and `Find.execute` passes
the already-parsed body (`response.json()`) into `CouchDBException.auto`,
which calls `.json()` on that dict and so raises `AttributeError` instead of
a classified `DocumentConflictException`. -/
theorem C4_error_not_classified :
    callViewlike ⟨false, 404,
        .ok (.obj [("error", .str "not_found"), ("reason", .str "missing")])⟩
      = .ok (.obj [("error", .str "not_found"), ("reason", .str "missing")])
    ∧ Find.executeHttp ⟨false, 409,
        .ok (.obj [("error", .str "conflict"), ("reason", .str "conflict")])⟩
      = .error (.inl .attributeError) := ⟨rfl, rfl⟩

/-- C5 counterexample: on a failed response whose JSON body carries an
unhashable reason value (`{"error":"bad","reason":["x"]}`), the classifier
does not map the unrecognized reason to the generic failure kind — the
`defaultdict` subscript hashes the key first and raises `TypeError`,
outside the `try` that catches only `JSONDecodeError`. -/
theorem C5_counterexample :
    CouchDBException.auto (.resp ⟨false, 400,
        .ok (.obj [("error", .str "bad"), ("reason", .arr [.str "x"])])⟩)
      = .error .typeError := rfl

/-- C5 (amended): given a failed response, the classifier reads
`error`/`reason` from a JSON-object body and maps reason
`conflict`/`unauthorized`/`not_found` to the corresponding exception class
and any other *hashable* reason (string, number, boolean, null or absent)
to the generic class, while an unhashable reason value (a JSON array or
object) raises `TypeError` from the table subscript; a malformed body
synthesizes error kind `json` with a reason embedding the status code; and
the classifier never raises a serialization failure (`JSONDecodeError`)
itself. -/
theorem C5_classifier (r : HttpResponse) (fs : List (String × JVal)) :
    (r.body = .ok (.obj fs) → QMap.get fs "reason" = some (.str "conflict") →
      CouchDBException.auto (.resp r)
        = .ok ⟨.conflict, QMap.get fs "error", some (.str "conflict")⟩)
    ∧ (r.body = .ok (.obj fs) → QMap.get fs "reason" = some (.str "unauthorized") →
      CouchDBException.auto (.resp r)
        = .ok ⟨.unauthorized, QMap.get fs "error", some (.str "unauthorized")⟩)
    ∧ (r.body = .ok (.obj fs) → QMap.get fs "reason" = some (.str "not_found") →
      CouchDBException.auto (.resp r)
        = .ok ⟨.notFound, QMap.get fs "error", some (.str "not_found")⟩)
    ∧ (r.body = .ok (.obj fs) →
        (∀ x, QMap.get fs "reason" = some x → x.hashable = true) →
        QMap.get fs "reason" ≠ some (.str "conflict") →
        QMap.get fs "reason" ≠ some (.str "unauthorized") →
        QMap.get fs "reason" ≠ some (.str "not_found") →
        CouchDBException.auto (.resp r)
          = .ok ⟨.generic, QMap.get fs "error", QMap.get fs "reason"⟩)
    ∧ (r.body = .ok (.obj fs) →
        ∀ x, QMap.get fs "reason" = some x → x.hashable = false →
        CouchDBException.auto (.resp r) = .error .typeError)
    ∧ (r.body = .error () →
        CouchDBException.auto (.resp r)
          = .ok ⟨.generic, some (.str "json"),
              some (.str ("Invalid data received from server, status code "
                ++ toString r.status))⟩)
    ∧ (CouchDBException.auto (.resp r) ≠ .error .jsonDecodeError) := by
  refine ⟨fun hb hr => ?_, fun hb hr => ?_, fun hb hr => ?_,
          fun hb hh h1 h2 h3 => ?_, fun hb x hr hx => ?_, fun hb => ?_, ?_⟩
  · simp [CouchDBException.auto, AutoArg.jsonCall, hb, JVal.dictGet, hr,
      CouchDBException.lookup_table]
  · simp [CouchDBException.auto, AutoArg.jsonCall, hb, JVal.dictGet, hr,
      CouchDBException.lookup_table]
  · simp [CouchDBException.auto, AutoArg.jsonCall, hb, JVal.dictGet, hr,
      CouchDBException.lookup_table]
  · simp [CouchDBException.auto, AutoArg.jsonCall, hb, JVal.dictGet,
      lookup_table_eq_generic _ hh h1 h2 h3]
  · simp [CouchDBException.auto, AutoArg.jsonCall, hb, JVal.dictGet, hr,
      lookup_table_unhashable x hx]
  · have hlt : CouchDBException.lookup_table
        (some (.str ("Invalid data received from server, status code "
          ++ toString r.status)))
        = .ok .generic := by
      refine lookup_table_eq_generic _ (fun x hx => by cases hx; rfl) ?_ ?_ ?_
      · intro h; simp only [Option.some.injEq, JVal.str.injEq] at h
        exact invalid_reason_ne _ "conflict" (by decide) h
      · intro h; simp only [Option.some.injEq, JVal.str.injEq] at h
        exact invalid_reason_ne _ "unauthorized" (by decide) h
      · intro h; simp only [Option.some.injEq, JVal.str.injEq] at h
        exact invalid_reason_ne _ "not_found" (by decide) h
    simp only [CouchDBException.auto, AutoArg.jsonCall, hb, AutoArg.statusCode, hlt]
  · rcases hb : r.body with u | data
    · simp only [CouchDBException.auto, AutoArg.jsonCall, hb, AutoArg.statusCode]
      rcases hlt : CouchDBException.lookup_table
          (some (.str ("Invalid data received from server, status code "
            ++ toString r.status))) with e | kind
      · have he := lookup_table_error_typeError _ _ hlt
        subst he
        simp [hlt]
      · simp [hlt]
    · rcases data with _ | b | n | s | xs | gs
      case ok.obj =>
        simp only [CouchDBException.auto, AutoArg.jsonCall, hb, JVal.dictGet]
        rcases hlt : CouchDBException.lookup_table (QMap.get gs "reason") with e | kind
        · have he := lookup_table_error_typeError _ _ hlt
          subst he
          simp
        · simp
      all_goals
        simp [CouchDBException.auto, AutoArg.jsonCall, hb, JVal.dictGet]

/-- C5 witness: a 409 response with body
`{"error":"conflict","reason":"conflict"}` classifies to the conflict
exception class. -/
theorem C5_witness :
    CouchDBException.auto (.resp ⟨false, 409,
        .ok (.obj [("error", .str "conflict"), ("reason", .str "conflict")])⟩)
      = .ok ⟨.conflict, some (.str "conflict"), some (.str "conflict")⟩ := by
  have h := (C5_classifier ⟨false, 409,
      .ok (.obj [("error", .str "conflict"), ("reason", .str "conflict")])⟩
      [("error", .str "conflict"), ("reason", .str "conflict")]).1 rfl rfl
  simpa [QMap.get] using h

/-- With no `last_seq` marker in the stream, each non-empty line produces
exactly one event, in order. -/
theorem changesRun_no_lastseq (ls : List FeedLine)
    (h : ∀ e, some e ∈ ls → e.hasLastSeq = false) :
    changesRun ls = ls.filterMap id := by
  induction ls with
  | nil => rfl
  | cons hd tl ih =>
      cases hd with
      | none =>
          simpa [changesRun] using ih fun e he => h e (List.mem_cons_of_mem _ he)
      | some d =>
          have hd' := h d (List.mem_cons_self _ _)
          simp [changesRun, hd', ih fun e he => h e (List.mem_cons_of_mem _ he)]

/-- C7: `iterview` rejects a non-positive `batch`, and (with a valid batch) a
caller-supplied non-positive `limit`, with a `ValueError` before the fetch
loop; the rejection is identical for every server, so no request is issued,
and the result is an error rather than an empty sequence. -/
theorem C7_iterview_validation (server : ViewServer) (batch : Int)
    (limit : Option Int) (fuel : Nat) :
    (batch ≤ 0 →
      iterview server batch limit fuel
        = .error (.valueError "batch must be 1 or more"))
    ∧ (0 < batch → ∀ l, limit = some l → l ≤ 0 →
      iterview server batch limit fuel
        = .error (.valueError "limit must be 1 or more"))
    ∧ (∀ server' : ViewServer, batch ≤ 0 ∨ nonposOpt limit = true →
      iterview server batch limit fuel = iterview server' batch limit fuel) := by
  refine ⟨fun h => ?_, fun hb l hl hl0 => ?_, fun server' h => ?_⟩
  · simp [iterview, h]
  · have : nonposOpt limit = true := by simp [nonposOpt, hl, hl0]
    simp [iterview, this, not_le.mpr hb]
  · rcases h with h | h
    · simp [iterview, h]
    · by_cases hb : batch ≤ 0 <;> simp [iterview, h, hb]

/-- C7 witness: `batch=0` fails with the configuration `ValueError`
regardless of the server. -/
theorem C7_witness :
    ((0 : Int) ≤ 0)
    ∧ iterview view5Server 0 none 3
        = .error (.valueError "batch must be 1 or more") :=
  ⟨le_refl 0, (C7_iterview_validation view5Server 0 none 3).1 (le_refl 0)⟩

/-- C8: the change-feed line loop skips empty heartbeat lines, yields one
`ChangeEvent` per non-empty line (exactly one per line while no `last_seq`
marker occurs), and on a `last_seq` object yields it, discards the rest of
the stream, and yields nothing further; the spec's three-line example yields
exactly the two events. -/
theorem C8_changes_feed (d : ChangeDoc) (rest ls : List FeedLine) :
    (changesRun (none :: rest) = changesRun rest)
    ∧ (d.hasLastSeq = false → changesRun (some d :: rest) = d :: changesRun rest)
    ∧ (d.hasLastSeq = true → changesRun (some d :: rest) = [d])
    ∧ ((∀ e, some e ∈ ls → e.hasLastSeq = false) →
        changesRun ls = ls.filterMap id)
    ∧ (changesRun [some ⟨false, 1⟩, none, some ⟨true, 42⟩]
        = [⟨false, 1⟩, ⟨true, 42⟩]) := by
  refine ⟨rfl, fun h => ?_, fun h => ?_, changesRun_no_lastseq ls, rfl⟩
  · simp [changesRun, h]
  · simp [changesRun, h]

/-- C8 witness: a `last_seq` object is yielded and the remaining line of the
stream is discarded. -/
theorem C8_witness :
    (ChangeDoc.mk true 42).hasLastSeq = true
    ∧ changesRun [some ⟨true, 42⟩, some ⟨false, 7⟩] = [⟨true, 42⟩] :=
  ⟨rfl, (C8_changes_feed ⟨true, 42⟩ [some ⟨false, 7⟩] []).2.2.1 rfl⟩

/-- C9: the view option encoder JSON-encodes every `key`/`startkey`/`endkey`
value regardless of type and every other non-textual value, passes textual
values under other names through unencoded, encodes entrywise preserving
names and order, and is deterministic (equal inputs give equal outputs). -/
theorem C9_encode_options (options : List (String × JVal)) (n : String) (v : JVal) :
    (encodeViewOptions options
      = options.map fun p => (p.1, encodeViewEntry p.1 p.2))
    ∧ (n = "key" ∨ n = "startkey" ∨ n = "endkey" →
        encodeViewEntry n v = jsonDumps v)
    ∧ (v.isStrbase = false → encodeViewEntry n v = jsonDumps v)
    ∧ (¬(n = "key" ∨ n = "startkey" ∨ n = "endkey") →
        ∀ s, v = .str s → encodeViewEntry n v = s)
    ∧ (∀ options' : List (String × JVal), options = options' →
        encodeViewOptions options = encodeViewOptions options') := by
  refine ⟨rfl, fun h => ?_, fun h => ?_, fun h s hv => ?_, fun o h => by rw [h]⟩
  · unfold encodeViewEntry
    rw [if_pos (by tauto)]
  · unfold encodeViewEntry
    rw [if_pos (by simp [h])]
  · subst hv
    unfold encodeViewEntry
    rw [if_neg (by simpa [JVal.isStrbase] using h)]
    rfl

/-- C9 witness: a numeric `startkey` is JSON-encoded while a textual value
under another name passes through. -/
theorem C9_witness :
    ("startkey" = "key" ∨ "startkey" = "startkey" ∨ "startkey" = "endkey")
    ∧ encodeViewEntry "startkey" (.num 5) = "5"
    ∧ (JVal.str "10").isStrbase = true := by
  refine ⟨Or.inr (Or.inl rfl), ?_, rfl⟩
  have h := (C9_encode_options [] "startkey" (.num 5)).2.1 (Or.inr (Or.inl rfl))
  simpa using h

theorem pyEqNat_num (m n : Nat) : JVal.pyEqNat (.num (m : Int)) n = (n == m) := by
  rw [Bool.eq_iff_iff]
  simp only [JVal.pyEqNat, beq_iff_eq]
  constructor
  · intro h; exact_mod_cast h.symm
  · intro h; exact_mod_cast h.symm

theorem pyOr25_limit (lim? : Option Nat) (hpos : ∀ n, lim? = some n → 0 < n) :
    pyOr25 (lim?.map fun n => JVal.num (n : Int))
      = .num ((lim?.getD 25 : Nat) : Int) := by
  rcases lim? with _ | n
  · rfl
  · have h := hpos n rfl
    have hne : ((n : Int)) ≠ 0 := by
      exact_mod_cast Nat.pos_iff_ne_zero.mp h
    simp [pyOr25, JVal.truthy, bne, hne]

/-- C1: after every page fetch of a `FindIterator`, `hasMorePages` is true
iff the wire response carried a bookmark and its row count equals the
query's `limit` (25 when unset); a short page therefore gives
`hasMorePages = false` even with a bookmark present.  (The query's limit,
when set, is a positive integer per the data model; `limit=0` would fall
back to 25 through Python's `or`.) -/
theorem C1_has_next_page (server : FindServer) (st : FindIterState)
    (lim? : Option Nat)
    (hq : st.find.query.get "limit" = lim?.map fun n => JVal.num (n : Int))
    (hpos : ∀ n, lim? = some n → 0 < n) :
    ((fetchMore server st).hasMorePages
      = ((server (Find.sentQuery st.find.query st.bookmark)).bookmark.isSome
          && ((server (Find.sentQuery st.find.query st.bookmark)).docs.length
              == lim?.getD 25)))
    ∧ ((server (Find.sentQuery st.find.query st.bookmark)).docs.length
          < lim?.getD 25 →
        (fetchMore server st).hasMorePages = false) := by
  have h1 : (fetchMore server st).hasMorePages
      = ((server (Find.sentQuery st.find.query st.bookmark)).bookmark.isSome
        && (pyOr25 (st.find.query.get "limit")).pyEqNat
             (server (Find.sentQuery st.find.query st.bookmark)).docs.length) := rfl
  rw [h1, hq, pyOr25_limit lim? hpos, pyEqNat_num]
  refine ⟨rfl, fun hlt => ?_⟩
  simp [Nat.ne_of_lt hlt]

def c1Server : FindServer := fun _ => ⟨[.num 10, .num 11], some "b1", none, none⟩

def c1State : FindIterState :=
  ⟨⟨[("selector", .obj []), ("limit", .num 2)], id, true⟩, none, [], false⟩

/-- C1 witness: limit 2, two rows and a bookmark give `hasMorePages = true`. -/
theorem C1_witness :
    (c1State.find.query.get "limit"
      = (some 2 : Option Nat).map fun n => JVal.num (n : Int))
    ∧ (fetchMore c1Server c1State).hasMorePages = true := by
  refine ⟨rfl, ?_⟩
  have h := (C1_has_next_page c1Server c1State (some 2) rfl
    (fun n hn => by cases hn; decide)).1
  rw [h]
  rfl

/-- C2: `__next__` pops the front of the FIFO buffer when non-empty; on an
empty buffer it fetches the next page (via the saved bookmark) and retries
exactly when auto-pagination is on and `hasMorePages` holds — signalling
end-of-sequence if the refetch yields nothing — and otherwise signals
end-of-sequence; the refetch appends the new page's rows behind the buffer
in server order. -/
theorem C2_next_semantics (server : FindServer) (st : FindIterState) :
    (∀ r rest, st.queue = r :: rest →
        iterNext server st = some (r, { st with queue := rest }))
    ∧ (st.queue = [] →
        (st.find.autoPaginate = false ∨ st.hasMorePages = false) →
        iterNext server st = none)
    ∧ (st.queue = [] → st.find.autoPaginate = true → st.hasMorePages = true →
        iterNext server st =
          (match (fetchMore server st).queue with
           | r :: rest => some (r, { fetchMore server st with queue := rest })
           | [] => none))
    ∧ ((fetchMore server st).queue
        = st.queue ++ (FindResponse.make
            (server (Find.sentQuery st.find.query st.bookmark))
            st.find.wrapper).docs) := by
  refine ⟨fun r rest h => ?_, fun h hd => ?_, fun h ha hm => ?_, rfl⟩
  · simp [iterNext, nextFuel, h]
  · have hc : (st.find.autoPaginate && st.hasMorePages) = false := by
      rcases hd with hd | hd <;> simp [hd]
    simp [iterNext, nextFuel, h, hc]
  · rcases hq' : (fetchMore server st).queue with _ | ⟨r', rest'⟩
    · have hm' := fetchMore_empty_not_hasMore server st h hq'
      simp [iterNext, nextFuel, h, ha, hm, hq', hm']
    · simp [iterNext, nextFuel, h, ha, hm, hq']

def c2State : FindIterState :=
  ⟨⟨[("selector", .obj [])], id, false⟩, none, [.num 7], false⟩

/-- C2 witness: with one buffered row, `__next__` pops and returns it. -/
theorem C2_witness :
    c2State.queue = .num 7 :: []
    ∧ iterNext c1Server c2State = some (.num 7, { c2State with queue := [] }) :=
  ⟨rfl, (C2_next_semantics c1Server c2State).1 (.num 7) [] rfl⟩

theorem nextFuel_preserves_query (server : FindServer) :
    ∀ (fuel : Nat) (st : FindIterState) (v : JVal) (st' : FindIterState),
      nextFuel server fuel st = some (v, st') → st'.find.query = st.find.query := by
  intro fuel
  induction fuel with
  | zero => intro st v st' h; simp [nextFuel] at h
  | succ n ih =>
      intro st v st' h
      rcases hq : st.queue with _ | ⟨r, rest⟩
      · by_cases hc : (st.find.autoPaginate && st.hasMorePages) = true
        · have h' : nextFuel server n (fetchMore server st) = some (v, st') := by
            simpa [nextFuel, hq, hc] using h
          rw [ih _ _ _ h']
          rfl
        · simp [nextFuel, hq, hc] at h
      · simp [nextFuel, hq] at h
        rw [← h.2]

theorem stepState_query (server : FindServer) (st : FindIterState) :
    (stepState server st).find.query = st.find.query := by
  unfold stepState
  rcases h : iterNext server st with _ | ⟨v, st'⟩
  · rfl
  · exact nextFuel_preserves_query server 2 st v st' h

theorem runSteps_query (server : FindServer) :
    ∀ (n : Nat) (st : FindIterState),
      (runSteps server n st).find.query = st.find.query := by
  intro n
  induction n with
  | zero => intro st; rfl
  | succ n ih => intro st; rw [runSteps, ih, stepState_query]

/-- C10: iterating never mutates the `Find`'s stored query — a continuation
request posts a fresh copy with the bookmark set on the copy, the stored
query is returned unchanged by every `execute`, any number of consumer
steps preserves it (in particular its having a `bookmark` key), and a new
iteration starts from scratch: a fresh iterator's first page is the
server's answer to the original, bookmarkless query. -/
theorem C10_query_not_mutated (server : FindServer) (find : Find) (q : QMap)
    (b : String) (n : Nat) (st : FindIterState) :
    (Find.sentQuery q (some b) = (FindQuery.copy q).insert "bookmark" (.str b))
    ∧ (∀ bm : Option String, (Find.executeOk server find bm).2 = find.query)
    ∧ ((fetchMore server st).find.query = st.find.query)
    ∧ ((runSteps server n st).find.query = st.find.query)
    ∧ (QMap.hasKey ((runSteps server n st).find.query) "bookmark"
        = QMap.hasKey st.find.query "bookmark")
    ∧ (iterInit server find = fetchMore server ⟨find, none, [], false⟩)
    ∧ ((iterInit server find).queue
        = (FindResponse.make (server find.query) find.wrapper).docs) := by
  refine ⟨rfl, fun bm => rfl, rfl, runSteps_query server n st, ?_, rfl, rfl⟩
  rw [runSteps_query]

theorem pyOrInt_pos (limit : Option Int) (batch : Int)
    (hl : ∀ l, limit = some l → 0 < l) :
    pyOrInt limit batch = limit.getD batch := by
  rcases limit with _ | l
  · rfl
  · have h0 : (l == 0) = false := beq_eq_false_iff_ne.mpr (by have := hl l rfl; omega)
    simp [pyOrInt, h0]

theorem view5Server_respects (req : ViewReq) :
    (view5Server req).length ≤ req.limit.toNat := by
  rcases req with ⟨lim, start⟩
  rcases start with _ | ⟨k, i⟩ <;>
    · simp only [view5Server]
      exact List.length_take_le _ _

/-- C6: each pass of `iterview` requests `min(remaining-limit-or-batch,
batch) + 1` rows (so, against a limit-respecting server, fetches at most the
lookahead-padded batch), yields at most `batch` rows of the fetched page,
and stops exactly when the page holds no more than `batch` rows or the
remaining limit hits zero; concretely, `batch=2`, `limit=5` over a five-row
view yields exactly the five rows in three requests. -/
theorem C6_batched_iteration (server : ViewServer) (batch : Int)
    (hb : 0 < batch)
    (hs : ∀ req, (server req).length ≤ req.limit.toNat) :
    (∀ (limit : Option Int) (start : Option (String × String)),
      (∀ l, limit = some l → 0 < l) →
      ((iterviewStep server batch limit start).requestedLimit
          = min (limit.getD batch) batch + 1)
      ∧ (((iterviewStep server batch limit start).rows.length : Int)
          ≤ min (limit.getD batch) batch + 1)
      ∧ (((iterviewStep server batch limit start).yielded.length : Int) ≤ batch)
      ∧ ((iterviewStep server batch limit start).stop = true ↔
          ((iterviewStep server batch limit start).rows.length : Int) ≤ batch
            ∨ (iterviewStep server batch limit start).newLimit = some 0))
    ∧ iterview view5Server 2 (some 5) 5 = .ok (some (view5, 3)) := by
  refine ⟨fun limit start hl => ?_, by rfl⟩
  have hpy := pyOrInt_pos limit batch hl
  have hL : 0 < min (limit.getD batch) batch := by
    rcases limit with _ | l
    · simpa using hb
    · exact lt_min (hl l rfl) hb
  refine ⟨?_, ?_, ?_, ?_⟩
  · show min (pyOrInt limit batch) batch + 1 = min (limit.getD batch) batch + 1
    rw [hpy]
  · show ((server ⟨min (pyOrInt limit batch) batch + 1, start⟩).length : Int)
        ≤ min (limit.getD batch) batch + 1
    have h2 : (server ⟨min (pyOrInt limit batch) batch + 1, start⟩).length
        ≤ (min (pyOrInt limit batch) batch + 1).toNat :=
      hs ⟨min (pyOrInt limit batch) batch + 1, start⟩
    rw [hpy] at h2 ⊢
    generalize hM : min (limit.getD batch) batch = M at *
    omega
  · show (((server ⟨min (pyOrInt limit batch) batch + 1, start⟩).take
          (min (pyOrInt limit batch) batch).toNat).length : Int) ≤ batch
    have h3 := List.length_take_le (min (pyOrInt limit batch) batch).toNat
      (server ⟨min (pyOrInt limit batch) batch + 1, start⟩)
    rw [hpy] at h3 ⊢
    have hMb : min (limit.getD batch) batch ≤ batch := min_le_right _ _
    generalize hM : min (limit.getD batch) batch = M at *
    omega
  · simp [iterviewStep]

/-- C6 witness: the concrete batched run — five rows, three requests. -/
theorem C6_witness :
    ((0 : Int) < 2)
    ∧ iterview view5Server 2 (some 5) 5 = .ok (some (view5, 3)) :=
  ⟨by decide,
   (C6_batched_iteration view5Server 2 (by decide) view5Server_respects).2⟩

end CouchDB
